import Mathlib

/-!
Shallow embedding of the session-orchestration core of the Cheetah deep-research
frontend (`App.jsx`, together with `ResultsPanel.jsx`), as a state-transition
system over the React component state.  Numbers carried by the protocol are
modelled as rationals; JavaScript `null`/`undefined` payload fields are
modelled as `Option`; the JavaScript `||` defaulting idiom is modelled by
explicit truthiness helpers.  Wall-clock fields (`Date.now()` ids and
timestamps) and browser I/O (`sessionStorage`, the WebSocket itself, Supabase
persistence) are outside the modelled state; the archival call
`saveResearchToHistory` is modelled by its effect on the in-memory
`researchHistory` list, which is the at-most-50 list the source keeps.
-/

namespace Cheetah

/-- One entry of an agent's step log: the `(step_type, step_data, timestamp)`
triple appended by the `agent_step` branch of `handleWebSocketMessage`. -/
structure Step where
  step_type : String
  step_data : String
  timestamp : String
deriving Repr, DecidableEq

/-- JavaScript truthiness of an optional string: `null`/`undefined` and the
empty string are falsy, every other string is truthy. -/
def truthyStr : Option String → Bool
  | some s => s != ""
  | none => false

/-- The JavaScript `m || old` defaulting idiom on optional string fields:
keep `m` when it is truthy, otherwise fall back to `old`. -/
def orStr (m old : Option String) : Option String :=
  if truthyStr m then m else old

/-- The JavaScript `m || old` defaulting idiom where `m` is an optional number
and `old` a number: `0`, `null` and `undefined` are falsy. -/
def orNum (m : Option ℚ) (old : ℚ) : ℚ :=
  match m with
  | some x => if x = 0 then old else x
  | none => old

/-- The JavaScript `m || old` defaulting idiom on two optional numbers. -/
def orNumOpt (m old : Option ℚ) : Option ℚ :=
  match m with
  | some x => if x = 0 then old else some x
  | none => old

/-- Whether `needle` occurs as a contiguous subsequence of `hay`. -/
def containsSeq (needle : List Char) : List Char → Bool
  | [] => needle.isEmpty
  | c :: rest => needle.isPrefixOf (c :: rest) || containsSeq needle rest

/-- JavaScript `s.includes(sub)`: substring containment test. -/
def strContains (s sub : String) : Bool :=
  containsSeq sub.data s.data

/-- The function `getProgressFromStatus` from `App.jsx`: the fallback table deriving a
progress percentage from an agent status string.  The source's status tokens
for the intermediate states carry a trailing ellipsis. -/
def getProgressFromStatus (status : String) : ℚ :=
  if status = "QUEUED" then 0
  else if status = "INITIALIZING..." then 25
  else if status = "PROCESSING..." then 50
  else if status = "COMPLETED" then 100
  else if strContains status "FAILED" then 0
  else 75

/-- One Agent Record as held in the React `agents` state array.  Fields the
source leaves `undefined` at creation (`steps`, `findings_count`,
`current_step`, `message`, `parallel_execution`) are modelled by their falsy
defaults, which is how every later read treats them. -/
structure Agent where
  id : Nat
  subtask : String
  status : String
  progress : ℚ
  result : Option String
  executionTime : ℚ
  hunter_type : Option String
  research_complexity : String
  deep_research : Bool
  findings_count : Option ℚ
  current_step : Option String
  message : Option String
  parallel_execution : Option Bool
  steps : List Step
deriving Repr, DecidableEq

/-- Payload of an `agent_progress` message (`message.data`). -/
structure ProgressData where
  agent_id : Nat
  status : String
  progress : Option ℚ
  result : Option String
  execution_time : Option ℚ
  hunter_type : Option String
  findings_count : Option ℚ
  current_step : Option String
  message : Option String
  parallel_execution : Option Bool
deriving Repr, DecidableEq

/-- Payload of an `agent_step` message (`message.data`). -/
structure StepData where
  agent_id : Nat
  step_type : String
  step_data : String
  timestamp : String
deriving Repr, DecidableEq

/-- The per-agent updater of the `agent_progress` branch: on an id match every
field is rebuilt exactly as in the source spread expression; otherwise the
agent is returned unchanged.  Explicit `progress` is tested against
`undefined` (not truthiness), so an explicit `0` is used as-is, while
`result`, `execution_time`, `hunter_type`, `findings_count`, `current_step`
and `message` use the `||` fallback, and `parallel_execution` defaults to
`false`. -/
def applyProgress (d : ProgressData) (a : Agent) : Agent :=
  if a.id = d.agent_id then
    { a with
      status := d.status
      progress := match d.progress with
        | some p => p
        | none => getProgressFromStatus d.status
      result := orStr d.result a.result
      executionTime := orNum d.execution_time a.executionTime
      hunter_type := orStr d.hunter_type a.hunter_type
      findings_count := orNumOpt d.findings_count a.findings_count
      current_step := orStr d.current_step a.current_step
      message := orStr d.message a.message
      parallel_execution := some (d.parallel_execution.getD false) }
  else a

/-- The per-agent updater of the `agent_step` branch: on an id match the step
triple is appended to the step log (`[...(agent.steps || []), entry]`), every
other field untouched; otherwise the agent is returned unchanged. -/
def applyStep (d : StepData) (a : Agent) : Agent :=
  if a.id = d.agent_id then
    { a with steps := a.steps ++ [⟨d.step_type, d.step_data, d.timestamp⟩] }
  else a

/-- Initial Agent Records built by the `task_decomposed` branch: one record
per subtask, `status = QUEUED`, `progress = 0`, `result = null`,
`executionTime = 0`, hunter type looked up by index when the message carries
a `hunter_types` array. -/
def initAgents (subtasks : List String) (hunter_types : Option (List String))
    (research_complexity : Option String) (deep_research : Option Bool) :
    List Agent :=
  subtasks.enum.map (fun p =>
    { id := p.1
      subtask := p.2
      status := "QUEUED"
      progress := 0
      result := none
      executionTime := 0
      hunter_type := match hunter_types with
        | some l => l.get? p.1
        | none => none
      research_complexity := match research_complexity with
        | some s => if s = "" then "standard" else s
        | none => "standard"
      deep_research := deep_research.getD false
      findings_count := none
      current_step := none
      message := none
      parallel_execution := none
      steps := [] })

/-- The defensive reconciliation applied to each agent by the
`orchestration_complete` branch: an agent carrying a truthy `result` is forced
to `COMPLETED`, any other agent keeps its last observed status;
`executionTime` is defaulted through `|| 0`. -/
def reconcileAgent (a : Agent) : Agent :=
  { a with
    status := if truthyStr a.result then "COMPLETED" else a.status
    executionTime := orNum (some a.executionTime) 0 }

/-- JavaScript `x.toFixed(0)` read back as an integer: round to the nearest
integer, ties toward positive infinity (the ECMAScript `toFixed` tie rule
picks the larger candidate). -/
def jsToFixed0 (x : ℚ) : ℤ := (x + 1 / 2).floor

/-- One archived research record as assembled by `saveResearchToHistory` from
the data the `orchestration_complete` branch passes to it.  The
wall-clock `id`/`timestamp` fields are not modelled. -/
structure HistoryEntry where
  query : String
  finalResult : String
  agentResults : String
  totalTime : ℚ
  agents : List Agent
  completedCount : Nat
  huntedMinute : ℤ
  sessionId : Option String
deriving Repr, DecidableEq

/-- The React component state of `App.jsx` that the orchestration claims are
about.  `researchHistory` is the in-memory history list maintained by
`saveResearchToHistory` (newest first, capped at 50 entries). -/
structure AppState where
  query : String
  isSearching : Bool
  agents : List Agent
  currentPhase : String
  finalResult : String
  currentSessionId : Option String
  activeSessions : List String
  pendingReconnection : Option String
  researchHistory : List HistoryEntry
deriving Repr, DecidableEq

/-- The initial component state: all `useState` initialisers of `App.jsx`. -/
def initialState : AppState :=
  { query := ""
    isSearching := false
    agents := []
    currentPhase := "idle"
    finalResult := ""
    currentSessionId := none
    activeSessions := []
    pendingReconnection := none
    researchHistory := [] }

/-- The inbound WebSocket messages dispatched by `handleWebSocketMessage`,
one constructor per `case` of the `switch`, each carrying the `message.data`
fields the handler reads. -/
inductive Msg where
  | session_created (session_id : String)
  | session_reconnected (session_id : String) (query : String)
      (current_phase : String) (agents : List Agent) (status : String)
  | active_sessions (sessions : List String)
  | reconnect_failed (session_id : String)
  | task_decomposed (subtasks : List String) (hunter_types : Option (List String))
      (research_complexity : Option String) (deep_research : Option Bool)
  | agent_progress (d : ProgressData)
  | agent_step (d : StepData)
  | deep_research_init
  | research_plan_created
  | parallel_research_start
  | agents_launched
  | research_phase_start (phase : Nat)
  | research_phase_complete (phase : Nat) (results_count : Nat)
  | synthesis_starting
  | orchestration_complete (final_result : String) (agent_results : String)
  | research_error (error : String)
deriving Repr, DecidableEq

/-- The history entry assembled inside the `orchestration_complete` branch:
agents are reconciled, the completed ones counted, the total execution time
accumulated by `reduce`, with the `5.0`-second fallback when that sum is not
positive, and the hunters-per-minute figure recorded through `toFixed(0)`.
`query` and `currentSessionId` are read from the closed-over render state,
i.e. the pre-event state. -/
def ocHistoryEntry (s : AppState) (final_result agent_results : String) :
    HistoryEntry :=
  let updatedAgents := s.agents.map reconcileAgent
  let completedAgents := updatedAgents.filter (fun a => a.status == "COMPLETED")
  let totalTime := updatedAgents.foldl (fun acc a => acc + a.executionTime) 0
  { query := s.query
    finalResult := final_result
    agentResults := agent_results
    totalTime := if totalTime > 0 then totalTime else 5
    agents := updatedAgents
    completedCount := completedAgents.length
    huntedMinute :=
      jsToFixed0 ((completedAgents.length : ℚ) /
        (if totalTime > 0 then totalTime else 5) * 60)
    sessionId := s.currentSessionId }

/-- The handler `handleWebSocketMessage`, branch by branch, as a transition function on
the modelled component state.  Console logging, `sessionStorage` snapshots
and the Supabase write issued by `saveResearchToHistory` are I/O outside the
model; the `localStorage`-mirrored history list update
`[newResearch, ...researchHistory].slice(0, 50)` is modelled exactly. -/
def applyMsg (s : AppState) (m : Msg) : AppState :=
  match m with
  | .session_created session_id =>
      { s with currentSessionId := some session_id }
  | .session_reconnected session_id query current_phase agents status =>
      { s with
        currentSessionId := some session_id
        query := query
        currentPhase := current_phase
        agents := agents
        isSearching := status == "ongoing" }
  | .active_sessions sessions =>
      { s with activeSessions := sessions }
  | .reconnect_failed _ =>
      { s with pendingReconnection := none }
  | .task_decomposed subtasks hunter_types research_complexity deep_research =>
      { s with
        currentPhase := "executing"
        agents := initAgents subtasks hunter_types research_complexity deep_research
        isSearching := true }
  | .agent_progress d =>
      { s with agents := s.agents.map (applyProgress d) }
  | .agent_step d =>
      { s with agents := s.agents.map (applyStep d) }
  | .deep_research_init =>
      { s with currentPhase := "initializing" }
  | .research_plan_created =>
      { s with currentPhase := "planning" }
  | .parallel_research_start =>
      { s with currentPhase := "parallel_executing" }
  | .agents_launched =>
      { s with currentPhase := "parallel_executing" }
  | .research_phase_start phase =>
      { s with currentPhase := "phase_" ++ toString phase }
  | .research_phase_complete _ _ => s
  | .synthesis_starting =>
      { s with currentPhase := "synthesizing" }
  | .orchestration_complete final_result agent_results =>
      { s with
        currentPhase := "complete"
        finalResult := final_result
        isSearching := false
        currentSessionId := none
        agents := s.agents.map reconcileAgent
        researchHistory :=
          (ocHistoryEntry s final_result agent_results :: s.researchHistory).take 50 }
  | .research_error _ =>
      { s with currentPhase := "error", isSearching := false }

/-- Folding a whole inbound message sequence through the handler. -/
def applyMsgs (s : AppState) (ms : List Msg) : AppState :=
  ms.foldl applyMsg s

/-- JavaScript `String.prototype.trim`: drop whitespace from both ends
(modelled directly on the character list). -/
def jsTrim (s : String) : String :=
  String.mk (((s.data.dropWhile Char.isWhitespace).reverse.dropWhile
    Char.isWhitespace).reverse)

/-- The `handleSearch` command, the start of a run.  The source returns early on a
blank query (the WebSocket-connectivity guard concerns unmodelled I/O);
otherwise it clears the result, empties the agent collection, enters the
`decomposing` phase and resets the session id. -/
def handleSearch (s : AppState) : AppState :=
  if jsTrim s.query = "" then s
  else
    { s with
      isSearching := true
      finalResult := ""
      agents := []
      currentPhase := "decomposing"
      currentSessionId := none }

/-- The overall session progress rendered by the progress bar of `App.jsx`:
`agents.reduce((acc, agent) => acc + agent.progress, 0) / agents.length`. -/
def overallProgress (agents : List Agent) : ℚ :=
  agents.foldl (fun acc a => acc + a.progress) 0 / (agents.length : ℚ)

/-- The `completedAgents` filter of `ResultsPanel.jsx`: the agents whose
status is the literal `COMPLETED`. -/
def completedAgentsOf (agents : List Agent) : List Agent :=
  agents.filter (fun a => a.status == "COMPLETED")

/-- The messages belonging to a session's own run (everything except the
connection-management messages, which manipulate a different part of the
client state). -/
def isRunMsg : Msg → Bool
  | .session_created _ => false
  | .session_reconnected _ _ _ _ _ => false
  | .active_sessions _ => false
  | .reconnect_failed _ => false
  | _ => true

/-- The two terminal events of a run. -/
def isTerminalMsg : Msg → Bool
  | .orchestration_complete _ _ => true
  | .research_error _ => true
  | _ => false

/-- The completion event alone. -/
def isCompleteMsg : Msg → Bool
  | .orchestration_complete _ _ => true
  | _ => false

/-- A message list in which a terminal event can only stand last: the shape
of a single well-formed run, where `complete` and `error` are terminal. -/
def noEarlyTerminal : List Msg → Bool
  | [] => true
  | [_] => true
  | m :: rest => !isTerminalMsg m && noEarlyTerminal rest

/-- Every message of the list belongs to the run itself. -/
def allRunMsgs (ms : List Msg) : Bool :=
  ms.all isRunMsg

/-- Every completion event of the list carries a non-empty final result. -/
def okFinalResults : List Msg → Bool
  | [] => true
  | .orchestration_complete final_result _ :: rest =>
      final_result != "" && okFinalResults rest
  | _ :: rest => okFinalResults rest

/-- A stored agent result is either absent or a non-empty string: the `||`
fallback never stores the empty string. -/
def resultOk (a : Agent) : Bool :=
  match a.result with
  | none => true
  | some r => r != ""

/-- The mid-run invariant of a session that has not yet received a terminal
event: the phase is not `complete` and no final result is set. -/
def runInv (s : AppState) : Prop :=
  s.currentPhase ≠ "complete" ∧ s.finalResult = ""

/-- Fixture: an `agent_progress` payload carrying only the fields of
interest. -/
def mkPd (i : Nat) (st : String) (p : Option ℚ) (r : Option String)
    (t : Option ℚ) : ProgressData :=
  { agent_id := i
    status := st
    progress := p
    result := r
    execution_time := t
    hunter_type := none
    findings_count := none
    current_step := none
    message := none
    parallel_execution := none }

/-- Fixture: an `agent_step` payload. -/
def mkStepD (i : Nat) : StepData :=
  { agent_id := i, step_type := "search", step_data := "d", timestamp := "ts" }

/-- Fixture: a freshly initialised agent. -/
def wAgent0 : Agent :=
  { id := 0
    subtask := "t0"
    status := "QUEUED"
    progress := 0
    result := none
    executionTime := 0
    hunter_type := none
    research_complexity := "standard"
    deep_research := false
    findings_count := none
    current_step := none
    message := none
    parallel_execution := none
    steps := [] }

/-- Fixture: an agent mid-run, already carrying a result. -/
def wAgent1 : Agent :=
  { wAgent0 with
    id := 1
    subtask := "t1"
    status := "PROCESSING..."
    progress := 50
    result := some "found"
    executionTime := 2 }

/-- Fixture: a state with a non-blank query and two agents. -/
def wStart : AppState :=
  { initialState with query := "q", agents := [wAgent0, wAgent1] }

/-- Fixture: a run whose three agents report explicit progress 0, 50, 100. -/
def wC2ms : List Msg :=
  [Msg.task_decomposed ["a", "b", "c"] none none none,
   Msg.agent_progress (mkPd 0 "QUEUED" (some 0) none none),
   Msg.agent_progress (mkPd 1 "PROCESSING..." (some 50) none none),
   Msg.agent_progress (mkPd 2 "COMPLETED" (some 100) none none)]

/-- Fixture: a minimal well-formed run ending in a completion event. -/
def wC5ms : List Msg :=
  [Msg.task_decomposed ["t"] none none none,
   Msg.orchestration_complete "res" "x"]

/-- Fixture: a run in which one of two agents has picked up a result. -/
def wC6ms : List Msg :=
  [Msg.task_decomposed ["t", "u"] none none none,
   Msg.agent_progress (mkPd 0 "PROCESSING..." none (some "x") none)]

/-- Fixture: a completed agent with an eight-second execution time. -/
def wC8agent : Agent :=
  { wAgent0 with
    status := "COMPLETED"
    result := some "x"
    executionTime := 8 }

/-- Fixture: a session about to complete with one finished agent. -/
def wC8state : AppState :=
  { initialState with query := "q", agents := [wC8agent] }

end Cheetah

namespace Cheetah

/-- Accumulating a field with `reduce`/`foldl` computes the sum of that field
over the collection. -/
theorem foldl_add_map_sum (f : Agent → ℚ) :
    ∀ (l : List Agent) (c : ℚ),
      l.foldl (fun acc a => acc + f a) c = c + (l.map f).sum
  | [], c => by simp
  | a :: l, c => by
      simp [List.foldl, foldl_add_map_sum f l (c + f a), add_assoc]

/-- The `toFixed(0)` model agrees with the mathematical floor of `x + 1/2`. -/
theorem jsToFixed0_eq_floor (x : ℚ) : jsToFixed0 x = ⌊x + 1 / 2⌋ := by
  show (x + 1 / 2).floor = ⌊x + 1 / 2⌋
  rw [Rat.floor_def', Rat.floor_def]

/-- Mapping a function that fixes every member of a list is the identity. -/
theorem map_eq_self_of_mem {f : Agent → Agent} :
    ∀ (l : List Agent), (∀ a ∈ l, f a = a) → l.map f = l
  | [], _ => rfl
  | a :: l, h => by
      rw [List.map_cons, h a (by simp),
        map_eq_self_of_mem l (fun b hb => h b (by simp [hb]))]

/-- A phase tag of the form `phase_N` is never the `complete` phase. -/
theorem phaseTag_ne (t : String) : ("phase_" ++ t) ≠ "complete" := by
  intro h
  have h3 : ("phase_" ++ t).data.head? = some 'p' := rfl
  rw [h] at h3
  exact absurd h3 (by decide)

/-- Any message other than `orchestration_complete` leaves the history list
untouched. -/
theorem history_step_of_not_complete (s : AppState) (m : Msg)
    (h : isCompleteMsg m = false) :
    (applyMsg s m).researchHistory = s.researchHistory := by
  cases m <;> simp_all [applyMsg, isCompleteMsg]

/-- A state satisfying the mid-run invariant satisfies the
completed-iff-result biconditional vacuously. -/
theorem runInv_iff {s : AppState} (h : runInv s) :
    (s.currentPhase = "complete" ↔ s.finalResult ≠ "") :=
  ⟨fun hc => absurd hc h.1, fun hf => absurd h.2 hf⟩

/-- Every non-terminal run message preserves the mid-run invariant. -/
theorem runInv_step (s : AppState) (m : Msg) (hr : isRunMsg m = true)
    (ht : isTerminalMsg m = false) (h : runInv s) : runInv (applyMsg s m) := by
  cases m with
  | session_created x => simp [isRunMsg] at hr
  | session_reconnected a b c d e => simp [isRunMsg] at hr
  | active_sessions x => simp [isRunMsg] at hr
  | reconnect_failed x => simp [isRunMsg] at hr
  | task_decomposed a b c d =>
      exact ⟨(by decide : ("executing" : String) ≠ "complete"), h.2⟩
  | agent_progress d => exact ⟨h.1, h.2⟩
  | agent_step d => exact ⟨h.1, h.2⟩
  | deep_research_init =>
      exact ⟨(by decide : ("initializing" : String) ≠ "complete"), h.2⟩
  | research_plan_created =>
      exact ⟨(by decide : ("planning" : String) ≠ "complete"), h.2⟩
  | parallel_research_start =>
      exact ⟨(by decide : ("parallel_executing" : String) ≠ "complete"), h.2⟩
  | agents_launched =>
      exact ⟨(by decide : ("parallel_executing" : String) ≠ "complete"), h.2⟩
  | research_phase_start n => exact ⟨phaseTag_ne (toString n), h.2⟩
  | research_phase_complete a b => exact h
  | synthesis_starting =>
      exact ⟨(by decide : ("synthesizing" : String) ≠ "complete"), h.2⟩
  | orchestration_complete fr ar => simp [isTerminalMsg] at ht
  | research_error e => simp [isTerminalMsg] at ht

/-- One final run message, terminal or not, establishes the
completed-iff-result biconditional from the mid-run invariant. -/
theorem iff_step (s : AppState) (m : Msg) (hr : isRunMsg m = true)
    (hfr : okFinalResults [m] = true) (h : runInv s) :
    ((applyMsg s m).currentPhase = "complete"
      ↔ (applyMsg s m).finalResult ≠ "") := by
  cases m with
  | orchestration_complete fr ar =>
      have hf : fr ≠ "" := by
        simpa [okFinalResults] using hfr
      exact ⟨fun _ => hf, fun _ => rfl⟩
  | research_error e =>
      constructor
      · intro hc
        exact absurd hc (by decide : ("error" : String) ≠ "complete")
      · intro hf; exact absurd h.2 hf
  | session_created x => simp [isRunMsg] at hr
  | session_reconnected a b c d e => simp [isRunMsg] at hr
  | active_sessions x => simp [isRunMsg] at hr
  | reconnect_failed x => simp [isRunMsg] at hr
  | task_decomposed a b c d => exact runInv_iff (runInv_step s _ hr rfl h)
  | agent_progress d => exact runInv_iff (runInv_step s _ hr rfl h)
  | agent_step d => exact runInv_iff (runInv_step s _ hr rfl h)
  | deep_research_init => exact runInv_iff (runInv_step s _ hr rfl h)
  | research_plan_created => exact runInv_iff (runInv_step s _ hr rfl h)
  | parallel_research_start => exact runInv_iff (runInv_step s _ hr rfl h)
  | agents_launched => exact runInv_iff (runInv_step s _ hr rfl h)
  | research_phase_start n => exact runInv_iff (runInv_step s _ hr rfl h)
  | research_phase_complete a b => exact runInv_iff (runInv_step s _ hr rfl h)
  | synthesis_starting => exact runInv_iff (runInv_step s _ hr rfl h)

/-- Over a whole well-formed run tail, the completed-iff-result biconditional
holds at the resulting state. -/
theorem C5aux : ∀ (ms : List Msg) (s : AppState), runInv s →
    allRunMsgs ms = true → noEarlyTerminal ms = true → okFinalResults ms = true →
    ((applyMsgs s ms).currentPhase = "complete"
      ↔ (applyMsgs s ms).finalResult ≠ "")
  | [], _, h, _, _, _ => runInv_iff h
  | [m], s, h, hr, _, hfr => by
      have hr1 : isRunMsg m = true := by
        simpa [allRunMsgs] using hr
      exact iff_step s m hr1 hfr h
  | m :: m2 :: rest, s, h, hr, ht, hfr => by
      have hr1 : isRunMsg m = true ∧ allRunMsgs (m2 :: rest) = true := by
        simpa [allRunMsgs, List.all_cons, Bool.and_eq_true] using hr
      have ht1 : isTerminalMsg m = false ∧ noEarlyTerminal (m2 :: rest) = true := by
        simpa [noEarlyTerminal, Bool.and_eq_true, Bool.not_eq_true'] using ht
      have hfr1 : okFinalResults (m2 :: rest) = true := by
        cases m <;> first
          | exact hfr
          | (simp only [okFinalResults, Bool.and_eq_true] at hfr; exact hfr.2)
      exact C5aux (m2 :: rest) (applyMsg s m)
        (runInv_step s m hr1.1 ht1.1 h) hr1.2 ht1.2 hfr1

/-- Characterisation of the stored-result invariant. -/
theorem resultOk_iff (a : Agent) :
    resultOk a = true ↔ (a.result = none ∨ ∃ r, a.result = some r ∧ r ≠ "") := by
  cases h : a.result with
  | none => simp [resultOk, h]
  | some r => simp [resultOk, h]

/-- A progress update never stores an empty-string result. -/
theorem resultOk_applyProgress (d : ProgressData) (a : Agent)
    (h : resultOk a = true) : resultOk (applyProgress d a) = true := by
  rw [applyProgress]
  split_ifs with hid
  · rw [resultOk_iff]
    rw [resultOk_iff] at h
    show orStr d.result a.result = none ∨
      ∃ r, orStr d.result a.result = some r ∧ r ≠ ""
    rw [orStr]
    split_ifs with ht
    · cases hd : d.result with
      | none => rw [hd] at ht; exact absurd ht (by decide)
      | some r =>
          right
          refine ⟨r, rfl, ?_⟩
          rw [hd] at ht
          simpa [truthyStr] using ht
    · exact h
  · exact h

/-- A step append leaves the stored-result invariant intact. -/
theorem resultOk_applyStep (d : StepData) (a : Agent)
    (h : resultOk a = true) : resultOk (applyStep d a) = true := by
  rw [applyStep]
  split_ifs with hid
  · exact h
  · exact h

/-- Reconciliation leaves the stored-result invariant intact. -/
theorem resultOk_reconcile (a : Agent)
    (h : resultOk a = true) : resultOk (reconcileAgent a) = true := h

/-- Freshly decomposed agents satisfy the stored-result invariant. -/
theorem resultOk_initAgents (subtasks : List String)
    (hunter_types : Option (List String)) (research_complexity : Option String)
    (deep_research : Option Bool) :
    ∀ a ∈ initAgents subtasks hunter_types research_complexity deep_research,
      resultOk a = true := by
  intro a ha
  rw [initAgents.eq_def] at ha
  obtain ⟨p, hp, rfl⟩ := List.mem_map.1 ha
  rfl

/-- The stored-result invariant holds for every agent of every state reached
by run messages from a state whose agents all satisfy it. -/
theorem resultOk_run : ∀ (ms : List Msg) (s : AppState),
    (∀ a ∈ s.agents, resultOk a = true) → allRunMsgs ms = true →
    ∀ a ∈ (applyMsgs s ms).agents, resultOk a = true
  | [], _, h, _ => h
  | m :: rest, s, h, hr => by
      have hr1 : isRunMsg m = true ∧ allRunMsgs rest = true := by
        simpa [allRunMsgs, List.all_cons, Bool.and_eq_true] using hr
      have hstep : ∀ a ∈ (applyMsg s m).agents, resultOk a = true := by
        cases m with
        | session_created x => simp [isRunMsg] at hr1
        | session_reconnected a b c d e => simp [isRunMsg] at hr1
        | active_sessions x => simp [isRunMsg] at hr1
        | reconnect_failed x => simp [isRunMsg] at hr1
        | task_decomposed a b c d =>
            intro x hx
            exact resultOk_initAgents a b c d x hx
        | agent_progress d =>
            intro x hx
            obtain ⟨b, hb, rfl⟩ := List.mem_map.1 hx
            exact resultOk_applyProgress d b (h b hb)
        | agent_step d =>
            intro x hx
            obtain ⟨b, hb, rfl⟩ := List.mem_map.1 hx
            exact resultOk_applyStep d b (h b hb)
        | orchestration_complete fr ar =>
            intro x hx
            obtain ⟨b, hb, rfl⟩ := List.mem_map.1 hx
            exact resultOk_reconcile b (h b hb)
        | deep_research_init => exact h
        | research_plan_created => exact h
        | parallel_research_start => exact h
        | agents_launched => exact h
        | research_phase_start n => exact h
        | research_phase_complete a b => exact h
        | synthesis_starting => exact h
        | research_error e => exact h
      exact resultOk_run rest (applyMsg s m) hstep hr1.2

end Cheetah

namespace Cheetah

/-- Claim C1, counterexample: the `orchestration_complete` handler carries no
per-session guard, so the same run, after archiving once on its first
completion event, archives a second History Entry when the completion
handling is re-triggered — the re-trigger is not a no-op. -/
theorem C1_counterexample :
    (applyMsgs (handleSearch wStart)
      [Msg.task_decomposed ["t"] none none none,
       Msg.orchestration_complete "r" "x"]).researchHistory.length = 1 ∧
    (applyMsgs (handleSearch wStart)
      [Msg.task_decomposed ["t"] none none none,
       Msg.orchestration_complete "r" "x",
       Msg.orchestration_complete "r" "x"]).researchHistory.length = 2 :=
  ⟨by decide, by decide⟩

/-- Claim C1, amended: archival is exactly once per `orchestration_complete`
event received, not at-most-once per session — over any event sequence the
history grows by the number of completion events (while under the 50-entry
cap), so a single completion archives exactly once but a re-delivered
completion archives again. -/
theorem C1_archive_per_completion :
    ∀ (ms : List Msg) (s : AppState),
      s.researchHistory.length + ms.countP isCompleteMsg ≤ 50 →
      (applyMsgs s ms).researchHistory.length
        = s.researchHistory.length + ms.countP isCompleteMsg
  | [], s, _ => by simp [applyMsgs]
  | m :: rest, s, hcap => by
      have hstep : applyMsgs s (m :: rest) = applyMsgs (applyMsg s m) rest := rfl
      by_cases hm : isCompleteMsg m = true
      · obtain ⟨fr, ar, rfl⟩ : ∃ fr ar, m = Msg.orchestration_complete fr ar := by
          cases m <;> first
            | exact ⟨_, _, rfl⟩
            | simp [isCompleteMsg] at hm
        have hcount : (Msg.orchestration_complete fr ar :: rest).countP isCompleteMsg
            = rest.countP isCompleteMsg + 1 := by
          simp [List.countP_cons, isCompleteMsg]
        rw [hcount] at hcap
        have hlen : (applyMsg s (Msg.orchestration_complete fr ar)).researchHistory.length
            = s.researchHistory.length + 1 := by
          show ((ocHistoryEntry s fr ar :: s.researchHistory).take 50).length = _
          rw [List.length_take, List.length_cons]
          omega
        rw [hstep, C1_archive_per_completion rest _ (by rw [hlen]; omega), hlen,
          hcount]
        omega
      · have hm2 : isCompleteMsg m = false := by simpa using hm
        have hh := history_step_of_not_complete s m hm2
        have hcount : (m :: rest).countP isCompleteMsg
            = rest.countP isCompleteMsg := by
          simp [List.countP_cons, hm2]
        rw [hcount] at hcap ⊢
        rw [hstep, C1_archive_per_completion rest _ (by rw [hh]; exact hcap), hh]

/-- Claim C1, witness: a sequence with one completion event archives exactly
one History Entry. -/
theorem C1_witness :
    initialState.researchHistory.length
        + ([Msg.orchestration_complete "r" "x"] : List Msg).countP isCompleteMsg
      ≤ 50 ∧
    (applyMsgs initialState
        [Msg.orchestration_complete "r" "x"]).researchHistory.length
      = initialState.researchHistory.length
        + ([Msg.orchestration_complete "r" "x"] : List Msg).countP isCompleteMsg :=
  ⟨by decide,
   C1_archive_per_completion [Msg.orchestration_complete "r" "x"] initialState
     (by decide)⟩

/-- Claim C2: for every non-empty agent collection reached by any event
sequence, the session-level progress rendered by the overall progress bar
equals the arithmetic mean of the current agent progress values. -/
theorem C2_session_progress_is_mean (s : AppState) (ms : List Msg)
    (h : (applyMsgs s ms).agents ≠ []) :
    overallProgress (applyMsgs s ms).agents
      = ((applyMsgs s ms).agents.map (fun a => a.progress)).sum
        / ((applyMsgs s ms).agents.length : ℚ) := by
  rw [overallProgress, foldl_add_map_sum, zero_add]

/-- Agents at progress 0, 50 and 100 yield session progress 50. -/
theorem overallProgress_example :
    overallProgress
      [wAgent0, { wAgent0 with id := 1, progress := 50 },
       { wAgent0 with id := 2, progress := 100 }] = 50 := by
  norm_num [overallProgress, wAgent0, List.foldl]

/-- Claim C2, witness: three agents updated to explicit progress 0, 50, 100. -/
theorem C2_witness :
    (applyMsgs wStart wC2ms).agents ≠ [] ∧
    overallProgress (applyMsgs wStart wC2ms).agents
      = ((applyMsgs wStart wC2ms).agents.map (fun a => a.progress)).sum
        / ((applyMsgs wStart wC2ms).agents.length : ℚ) :=
  ⟨by decide, C2_session_progress_is_mean wStart wC2ms (by decide)⟩

/-- Claim C3: the status-derived fallback table is exactly `QUEUED` to 0,
`INITIALIZING...` to 25, `PROCESSING...` to 50, `COMPLETED` to 100, any
status containing `FAILED` to 0 and any other status to 75; an explicit
progress value carried by the event is used unchanged and the fallback is
only consulted when the explicit value is absent. -/
theorem C3_progress_fallback (d : ProgressData) (a : Agent) (st : String) :
    (getProgressFromStatus "QUEUED" = 0 ∧
     getProgressFromStatus "INITIALIZING..." = 25 ∧
     getProgressFromStatus "PROCESSING..." = 50 ∧
     getProgressFromStatus "COMPLETED" = 100) ∧
    (strContains st "FAILED" = true → getProgressFromStatus st = 0) ∧
    (st ∉ (["QUEUED", "INITIALIZING...", "PROCESSING...", "COMPLETED"] : List String) →
      strContains st "FAILED" = false → getProgressFromStatus st = 75) ∧
    (a.id = d.agent_id → ∀ p, d.progress = some p →
      (applyProgress d a).progress = p) ∧
    (a.id = d.agent_id → d.progress = none →
      (applyProgress d a).progress = getProgressFromStatus d.status) := by
  refine ⟨⟨by decide, by decide, by decide, by decide⟩, ?_, ?_, ?_, ?_⟩
  · intro hf
    have h1 : st ≠ "QUEUED" := by rintro rfl; exact absurd hf (by decide)
    have h2 : st ≠ "INITIALIZING..." := by rintro rfl; exact absurd hf (by decide)
    have h3 : st ≠ "PROCESSING..." := by rintro rfl; exact absurd hf (by decide)
    have h4 : st ≠ "COMPLETED" := by rintro rfl; exact absurd hf (by decide)
    simp [getProgressFromStatus, h1, h2, h3, h4, hf]
  · intro hmem hf
    have h1 : st ≠ "QUEUED" := fun h => hmem (by rw [h]; decide)
    have h2 : st ≠ "INITIALIZING..." := fun h => hmem (by rw [h]; decide)
    have h3 : st ≠ "PROCESSING..." := fun h => hmem (by rw [h]; decide)
    have h4 : st ≠ "COMPLETED" := fun h => hmem (by rw [h]; decide)
    simp [getProgressFromStatus, h1, h2, h3, h4, hf]
  · intro hid p hp
    simp [applyProgress, hid, hp]
  · intro hid hp
    simp [applyProgress, hid, hp]

/-- Claim C3, witness: a failure status, an unknown status, an explicit
progress value kept unchanged, and the fallback when progress is absent. -/
theorem C3_witness :
    getProgressFromStatus "TIMEOUT_FAILED" = 0 ∧
    getProgressFromStatus "SEARCHING" = 75 ∧
    (applyProgress (mkPd 0 "PROCESSING..." (some 10) none none) wAgent0).progress
      = 10 ∧
    (applyProgress (mkPd 0 "PROCESSING..." none none none) wAgent0).progress
      = getProgressFromStatus "PROCESSING..." :=
  ⟨(C3_progress_fallback (mkPd 0 "QUEUED" none none none) wAgent0
      "TIMEOUT_FAILED").2.1 (by decide),
   (C3_progress_fallback (mkPd 0 "QUEUED" none none none) wAgent0
      "SEARCHING").2.2.1 (by decide) (by decide),
   (C3_progress_fallback (mkPd 0 "PROCESSING..." (some 10) none none) wAgent0
      "z").2.2.2.1 rfl 10 rfl,
   (C3_progress_fallback (mkPd 0 "PROCESSING..." none none none) wAgent0
      "z").2.2.2.2 rfl rfl⟩

/-- Claim C4, counterexample: an agent at derived progress 50 (status
`PROCESSING...`) drops to 0 when a later `agent_progress` event carries
status `QUEUED` with no explicit progress, with no run reset in between —
agent progress is not monotonically non-decreasing. -/
theorem C4_counterexample :
    ((applyMsgs (handleSearch wStart)
        [Msg.task_decomposed ["t"] none none none,
         Msg.agent_progress (mkPd 0 "PROCESSING..." none none none)]).agents.map
        (fun a => a.progress) = [50]) ∧
    ((applyMsgs (handleSearch wStart)
        [Msg.task_decomposed ["t"] none none none,
         Msg.agent_progress (mkPd 0 "PROCESSING..." none none none),
         Msg.agent_progress (mkPd 0 "QUEUED" none none none)]).agents.map
        (fun a => a.progress) = [0]) ∧
    ¬((50 : ℚ) ≤ 0) :=
  ⟨by decide, by decide, by norm_num⟩

/-- Claim C4, amended: agent progress is an unclamped last-writer-wins value —
each `agent_progress` event overwrites the target progress with the explicit
value when present, else the status-derived fallback (which always lies in
0–100); progress is non-decreasing only when each incoming effective value is
at least the current one, and the start of a new run clears the agent
collection. -/
theorem C4_progress_overwrite (s : AppState) (d : ProgressData) (a : Agent)
    (hid : a.id = d.agent_id) :
    ((applyProgress d a).progress =
       match d.progress with
       | some p => p
       | none => getProgressFromStatus d.status) ∧
    (∀ st, 0 ≤ getProgressFromStatus st ∧ getProgressFromStatus st ≤ 100) ∧
    (a.progress ≤ (match d.progress with
       | some p => p
       | none => getProgressFromStatus d.status) →
      a.progress ≤ (applyProgress d a).progress) ∧
    (jsTrim s.query ≠ "" → (handleSearch s).agents = []) := by
  refine ⟨by simp [applyProgress, hid], ?_, ?_, ?_⟩
  · intro st
    rw [getProgressFromStatus]
    split_ifs <;> norm_num
  · intro hle
    simpa [applyProgress, hid] using hle
  · intro hq
    simp [handleSearch, hq]

/-- Claim C4, witness: the overwrite equation, and the reset at the start of
a run, at a concrete agent and event. -/
theorem C4_witness :
    wAgent1.id = (mkPd 1 "QUEUED" none none none).agent_id ∧
    jsTrim wStart.query ≠ "" ∧
    ((applyProgress (mkPd 1 "QUEUED" none none none) wAgent1).progress =
       match (mkPd 1 "QUEUED" none none none).progress with
       | some p => p
       | none => getProgressFromStatus (mkPd 1 "QUEUED" none none none).status) ∧
    (handleSearch wStart).agents = [] :=
  ⟨rfl, by decide,
   (C4_progress_overwrite wStart (mkPd 1 "QUEUED" none none none) wAgent1 rfl).1,
   (C4_progress_overwrite wStart (mkPd 1 "QUEUED" none none none) wAgent1 rfl).2.2.2
     (by decide)⟩

end Cheetah

namespace Cheetah

/-- Claim C5: for every state reached by a single well-formed run — a
non-blank start command followed by run events whose completion payloads are
non-empty and in which a terminal event can only stand last — the final
result is non-empty exactly when the phase is `complete`; moreover the
completion event sets the `complete` phase and the final result together,
while the error event sets the `error` phase and never touches the final
result. -/
theorem C5_finalResult_iff_complete (s0 : AppState) (ms : List Msg)
    (fr ar err : String)
    (hq : jsTrim s0.query ≠ "")
    (hrun : allRunMsgs ms = true)
    (hterm : noEarlyTerminal ms = true)
    (hok : okFinalResults ms = true) :
    ((applyMsgs (handleSearch s0) ms).currentPhase = "complete"
       ↔ (applyMsgs (handleSearch s0) ms).finalResult ≠ "") ∧
    (applyMsg (applyMsgs (handleSearch s0) ms)
        (Msg.orchestration_complete fr ar)).currentPhase = "complete" ∧
    (applyMsg (applyMsgs (handleSearch s0) ms)
        (Msg.orchestration_complete fr ar)).finalResult = fr ∧
    (applyMsg (applyMsgs (handleSearch s0) ms)
        (Msg.research_error err)).currentPhase = "error" ∧
    (applyMsg (applyMsgs (handleSearch s0) ms)
        (Msg.research_error err)).finalResult
      = (applyMsgs (handleSearch s0) ms).finalResult := by
  have hinv : runInv (handleSearch s0) := by
    rw [handleSearch, if_neg hq]
    exact ⟨(by decide : ("decomposing" : String) ≠ "complete"), rfl⟩
  exact ⟨C5aux ms (handleSearch s0) hinv hrun hterm hok, rfl, rfl, rfl, rfl⟩

/-- Claim C5, witness: a run of one decomposition and one completion. -/
theorem C5_witness :
    jsTrim wStart.query ≠ "" ∧ allRunMsgs wC5ms = true ∧
    noEarlyTerminal wC5ms = true ∧ okFinalResults wC5ms = true ∧
    ((applyMsgs (handleSearch wStart) wC5ms).currentPhase = "complete"
       ↔ (applyMsgs (handleSearch wStart) wC5ms).finalResult ≠ "") :=
  ⟨by decide, by decide, by decide, by decide,
   (C5_finalResult_iff_complete wStart wC5ms "r" "a" "e"
      (by decide) (by decide) (by decide) (by decide)).1⟩

/-- Claim C6: when the completion event is applied to any state reached by a
run, every agent holding a (non-null) result is reconciled to `COMPLETED`,
every agent with a null result keeps its last observed status, the agent
collection becomes exactly the reconciled one, and the archived entry counts
exactly the agents whose status is `COMPLETED` after reconciliation (the
same filter `ResultsPanel` applies). -/
theorem C6_completion_reconciliation (s0 : AppState) (ms : List Msg)
    (fr ar : String)
    (hq : jsTrim s0.query ≠ "") (hrun : allRunMsgs ms = true) :
    (∀ a ∈ (applyMsgs (handleSearch s0) ms).agents,
       (a.result ≠ none → (reconcileAgent a).status = "COMPLETED") ∧
       (a.result = none → (reconcileAgent a).status = a.status)) ∧
    (applyMsg (applyMsgs (handleSearch s0) ms)
        (Msg.orchestration_complete fr ar)).agents
      = (applyMsgs (handleSearch s0) ms).agents.map reconcileAgent ∧
    (applyMsg (applyMsgs (handleSearch s0) ms)
        (Msg.orchestration_complete fr ar)).researchHistory.head?
      = some (ocHistoryEntry (applyMsgs (handleSearch s0) ms) fr ar) ∧
    (ocHistoryEntry (applyMsgs (handleSearch s0) ms) fr ar).completedCount
      = (completedAgentsOf
          ((applyMsgs (handleSearch s0) ms).agents.map reconcileAgent)).length := by
  have hok : ∀ a ∈ (applyMsgs (handleSearch s0) ms).agents, resultOk a = true := by
    apply resultOk_run ms (handleSearch s0) _ hrun
    intro a ha
    rw [handleSearch, if_neg hq] at ha
    exact absurd ha (List.not_mem_nil a)
  refine ⟨?_, rfl, rfl, rfl⟩
  intro a ha
  have h1 := hok a ha
  rw [resultOk_iff] at h1
  constructor
  · intro hne
    rcases h1 with h1 | ⟨r, hr, hrne⟩
    · exact absurd h1 hne
    · show (if truthyStr a.result then "COMPLETED" else a.status) = "COMPLETED"
      rw [hr]
      simp [truthyStr, hrne]
  · intro hnone
    show (if truthyStr a.result then "COMPLETED" else a.status) = a.status
    rw [hnone]
    simp [truthyStr]

/-- Claim C6, witness: after a run in which the first of two agents picked up
a result, the reconciliation facts hold. -/
theorem C6_witness :
    jsTrim wStart.query ≠ "" ∧ allRunMsgs wC6ms = true ∧
    (∀ a ∈ (applyMsgs (handleSearch wStart) wC6ms).agents,
       (a.result ≠ none → (reconcileAgent a).status = "COMPLETED") ∧
       (a.result = none → (reconcileAgent a).status = a.status)) :=
  ⟨by decide, by decide,
   (C6_completion_reconciliation wStart wC6ms "r" "y" (by decide) (by decide)).1⟩

/-- Claim C7: an `agent_step` event appends exactly one
`(stepType, stepData, timestamp)` entry to the end of the matching agent
step log, leaving every earlier step and every other field of that agent
(status, progress, result, execution time, identity) unchanged, leaving
every non-matching agent entirely unchanged, and leaving the collection
size, the phase, the final result and the history untouched. -/
theorem C7_step_append_frame (s : AppState) (d : StepData) (a : Agent)
    (ha : a ∈ s.agents) :
    (applyMsg s (Msg.agent_step d)).agents = s.agents.map (applyStep d) ∧
    ((applyMsg s (Msg.agent_step d)).agents).length = s.agents.length ∧
    (a.id = d.agent_id →
      (applyStep d a).steps
        = a.steps ++ [{ step_type := d.step_type, step_data := d.step_data,
                        timestamp := d.timestamp }] ∧
      (applyStep d a).status = a.status ∧
      (applyStep d a).progress = a.progress ∧
      (applyStep d a).result = a.result ∧
      (applyStep d a).executionTime = a.executionTime ∧
      (applyStep d a).id = a.id ∧
      (applyStep d a).subtask = a.subtask ∧
      (applyStep d a).hunter_type = a.hunter_type) ∧
    (a.id ≠ d.agent_id → applyStep d a = a) ∧
    (applyMsg s (Msg.agent_step d)).currentPhase = s.currentPhase ∧
    (applyMsg s (Msg.agent_step d)).finalResult = s.finalResult ∧
    (applyMsg s (Msg.agent_step d)).researchHistory = s.researchHistory := by
  refine ⟨rfl, by simp [applyMsg], ?_, ?_, rfl, rfl, rfl⟩
  · intro hid
    simp [applyStep, hid]
  · intro hid
    simp [applyStep, hid]

/-- Claim C7, witness: one step appended to a concrete agent. -/
theorem C7_witness :
    wAgent0 ∈ wStart.agents ∧ wAgent0.id = (mkStepD 0).agent_id ∧
    (applyStep (mkStepD 0) wAgent0).steps
      = wAgent0.steps ++ [{ step_type := "search", step_data := "d",
                            timestamp := "ts" }] :=
  ⟨by decide, rfl,
   ((C7_step_append_frame wStart (mkStepD 0) wAgent0 (by decide)).2.2.1 rfl).1⟩

/-- Claim C8, counterexample: one completed agent with an execution time of
8 seconds archives `huntedMinute = 8` (the `toFixed(0)` rounding of 7.5),
while the stated formula `completedCount / totalTime * 60` gives 15/2 — the
recorded statistic does not equal the raw formula. -/
theorem C8_counterexample :
    (applyMsg wC8state (Msg.orchestration_complete "r" "y")).researchHistory.head?
      = some (ocHistoryEntry wC8state "r" "y") ∧
    (ocHistoryEntry wC8state "r" "y").completedCount = 1 ∧
    (ocHistoryEntry wC8state "r" "y").totalTime = 8 ∧
    (ocHistoryEntry wC8state "r" "y").huntedMinute = 8 ∧
    ((8 : ℤ) : ℚ) ≠ (1 : ℚ) / 8 * 60 := by
  refine ⟨rfl, by decide, ?_, ?_, by norm_num⟩
  · show (if ((0 : ℚ) + 8) > 0 then ((0 : ℚ) + 8) else 5) = 8
    norm_num
  · show jsToFixed0
        ((1 : ℚ) / (if ((0 : ℚ) + 8) > 0 then ((0 : ℚ) + 8) else 5) * 60) = 8
    rw [jsToFixed0_eq_floor]
    norm_num

/-- Claim C8, amended: the recorded hunters-per-minute statistic equals
`completedCount / totalTime * 60` rounded to the nearest integer (ties up,
the JavaScript `toFixed(0)`), where `totalTime` is the sum of the reconciled
agent execution times when that sum is positive and the 5.0-second fallback
otherwise, and `completedCount` counts the reconciled `COMPLETED` agents. -/
theorem C8_hunters_per_minute_rounded (s : AppState) (fr ar : String) :
    (applyMsg s (Msg.orchestration_complete fr ar)).researchHistory.head?
      = some (ocHistoryEntry s fr ar) ∧
    (ocHistoryEntry s fr ar).totalTime
      = (if ((s.agents.map reconcileAgent).map (fun a => a.executionTime)).sum > 0
         then ((s.agents.map reconcileAgent).map (fun a => a.executionTime)).sum
         else 5) ∧
    (ocHistoryEntry s fr ar).completedCount
      = (completedAgentsOf (s.agents.map reconcileAgent)).length ∧
    (ocHistoryEntry s fr ar).huntedMinute
      = ⌊((completedAgentsOf (s.agents.map reconcileAgent)).length : ℚ)
          / (if ((s.agents.map reconcileAgent).map (fun a => a.executionTime)).sum > 0
             then ((s.agents.map reconcileAgent).map (fun a => a.executionTime)).sum
             else 5) * 60 + 1 / 2⌋ := by
  refine ⟨rfl, ?_, rfl, ?_⟩
  · show (if ((s.agents.map reconcileAgent).foldl
          (fun acc a => acc + a.executionTime) 0) > 0
        then ((s.agents.map reconcileAgent).foldl
          (fun acc a => acc + a.executionTime) 0)
        else 5) = _
    rw [foldl_add_map_sum, zero_add]
  · show jsToFixed0 _ = _
    rw [jsToFixed0_eq_floor, foldl_add_map_sum, zero_add]
    rfl

/-- Claim C9: an `agent_progress` or `agent_step` event whose agent id
matches no agent in the collection leaves the whole state exactly unchanged:
no record is created, none is modified, and no error is raised. -/
theorem C9_unknown_agent_noop (s : AppState) (dp : ProgressData) (ds : StepData)
    (hp : ∀ a ∈ s.agents, a.id ≠ dp.agent_id)
    (hs : ∀ a ∈ s.agents, a.id ≠ ds.agent_id) :
    applyMsg s (Msg.agent_progress dp) = s ∧
    applyMsg s (Msg.agent_step ds) = s := by
  constructor
  · show ({ s with agents := s.agents.map (applyProgress dp) } : AppState) = s
    rw [map_eq_self_of_mem s.agents (fun a ha => by
      simp [applyProgress, hp a ha])]
  · show ({ s with agents := s.agents.map (applyStep ds) } : AppState) = s
    rw [map_eq_self_of_mem s.agents (fun a ha => by
      simp [applyStep, hs a ha])]

/-- Claim C9, witness: events targeting the unknown agent id 9 are no-ops on
a concrete two-agent state. -/
theorem C9_witness :
    (∀ a ∈ wStart.agents, a.id ≠ (mkPd 9 "QUEUED" none none none).agent_id) ∧
    applyMsg wStart (Msg.agent_progress (mkPd 9 "QUEUED" none none none))
      = wStart ∧
    applyMsg wStart (Msg.agent_step (mkStepD 9)) = wStart :=
  ⟨by decide,
   (C9_unknown_agent_noop wStart (mkPd 9 "QUEUED" none none none) (mkStepD 9)
      (by decide) (by decide)).1,
   (C9_unknown_agent_noop wStart (mkPd 9 "QUEUED" none none none) (mkStepD 9)
      (by decide) (by decide)).2⟩

/-- Claim C10: once an agent result is non-null it never reverts to null
under `agent_progress` events; an event carrying no result preserves the
stored result, and an event carrying no execution time preserves the stored
execution time. -/
theorem C10_result_execTime_preserved (d : ProgressData) (a : Agent) :
    (a.result.isSome = true → ((applyProgress d a).result).isSome = true) ∧
    (d.result = none → (applyProgress d a).result = a.result) ∧
    (d.execution_time = none →
      (applyProgress d a).executionTime = a.executionTime) := by
  by_cases hid : a.id = d.agent_id
  · refine ⟨?_, ?_, ?_⟩
    · intro hsome
      simp only [applyProgress, hid, if_true]
      rw [orStr]
      split_ifs with ht
      · cases hr : d.result with
        | none => rw [hr] at ht; exact absurd ht (by decide)
        | some r => simp
      · simpa using hsome
    · intro hr
      simp [applyProgress, hid, orStr, hr, truthyStr]
    · intro ht
      simp [applyProgress, hid, orNum, ht]
  · exact ⟨fun h => by simp [applyProgress, hid, h],
      fun _ => by simp [applyProgress, hid],
      fun _ => by simp [applyProgress, hid]⟩

/-- Claim C10, witness: an event with no result and no execution time leaves
a concrete agent result and execution time in place. -/
theorem C10_witness :
    (wAgent1.result).isSome = true ∧
    ((applyProgress (mkPd 1 "PROCESSING..." none none none) wAgent1).result).isSome
      = true ∧
    (applyProgress (mkPd 1 "PROCESSING..." none none none) wAgent1).result
      = wAgent1.result ∧
    (applyProgress (mkPd 1 "PROCESSING..." none none none) wAgent1).executionTime
      = wAgent1.executionTime :=
  ⟨by decide,
   (C10_result_execTime_preserved (mkPd 1 "PROCESSING..." none none none)
      wAgent1).1 (by decide),
   (C10_result_execTime_preserved (mkPd 1 "PROCESSING..." none none none)
      wAgent1).2.1 rfl,
   (C10_result_execTime_preserved (mkPd 1 "PROCESSING..." none none none)
      wAgent1).2.2 rfl⟩

end Cheetah
